import Mathlib

/-!
Verification of the Space Lua templating core (`space_lua.ts`) and the
attribute-extraction helper (`attribute.ts`).

The functions of the two source files are translated directly.  External
collaborators that the source files consume (the document grammar, the tree
find/replace utilities, the Lua expression grammar, evaluator and runtime,
the YAML facility) are not part of the sampled source; each of those is
modelled from the specification and carries a doc comment saying so.
-/

set_option maxRecDepth 10000

/-! ## Parsed document trees -/

mutual
/-- Modelled from the spec: a Parsed Document Tree is made of typed nodes
(kind tag, children, literal text).  A node carries an optional kind tag, an
optional literal text and a list of children; plain text leaves carry no tag. -/
inductive ParseTree where
  | node (ty : Option String) (tx : Option String) (children : ParseTreeList)

/-- The children of a `ParseTree` node, as a mutually defined list. -/
inductive ParseTreeList where
  | nil
  | cons (head : ParseTree) (tail : ParseTreeList)
end

/-- Kind tag of a node. -/
def ParseTree.type : ParseTree → Option String
  | .node ty _ _ => ty

/-- Append of children lists. -/
def ParseTreeList.append : ParseTreeList → ParseTreeList → ParseTreeList
  | .nil, ys => ys
  | .cons x xs, ys => .cons x (xs.append ys)

mutual
/-- Modelled from the spec: the document Renderer (tree to text).  A node
with literal text renders as that text; otherwise it renders as the
concatenation of its children's renderings, in order. -/
def renderToText : ParseTree → String
  | .node _ (some t) _ => t
  | .node _ none cs => renderListToText cs

/-- Renderer on children lists. -/
def renderListToText : ParseTreeList → String
  | .nil => ""
  | .cons c cs => renderToText c ++ renderListToText cs
end

mutual
/-- Modelled from the spec: the tree find utility consumed by the core.
Pre-order search for the first node (the root included) whose kind tag is
the given one. -/
def findNodeOfType (t : ParseTree) (ty : String) : Option ParseTree :=
  match t with
  | .node ty0 tx cs =>
    if ty0 = some ty then some (.node ty0 tx cs) else findNodeOfTypeL cs ty

/-- `findNodeOfType` over a children list, left to right. -/
def findNodeOfTypeL (l : ParseTreeList) (ty : String) : Option ParseTree :=
  match l with
  | .nil => none
  | .cons c cs =>
    match findNodeOfType c ty with
    | some r => some r
    | none => findNodeOfTypeL cs ty
end

mutual
/-- Modelled from the spec: the asynchronous tree replace-by-predicate
utility (`replaceNodesMatchingAsync`).  The visitor is applied to each node
in pre-order; a `some` result replaces the node and its subtree and the
spliced content is not revisited; a `none` result descends into the
children; a failing visitor fails the whole traversal. -/
def replaceNodesMatching {ε : Type} (f : ParseTree → Except ε (Option ParseTree)) :
    ParseTree → Except ε ParseTree
  | .node ty tx cs =>
    match f (.node ty tx cs) with
    | .error e => .error e
    | .ok (some r) => .ok r
    | .ok none =>
      match replaceNodesMatchingL f cs with
      | .error e => .error e
      | .ok cs' => .ok (.node ty tx cs')

/-- `replaceNodesMatching` over a children list, left to right. -/
def replaceNodesMatchingL {ε : Type} (f : ParseTree → Except ε (Option ParseTree)) :
    ParseTreeList → Except ε ParseTreeList
  | .nil => .ok .nil
  | .cons c cs =>
    match replaceNodesMatching f c with
    | .error e => .error e
    | .ok c' =>
      match replaceNodesMatchingL f cs with
      | .error e => .error e
      | .ok cs' => .ok (.cons c' cs')
end

mutual
/-- The first error the visitor of `replaceNodesMatching` raises during the
traversal, if any: substituted subtrees and the insides of replaced nodes
are not visited, mirroring the traversal itself. -/
def firstCallbackError {ε : Type} (f : ParseTree → Except ε (Option ParseTree)) :
    ParseTree → Option ε
  | .node ty tx cs =>
    match f (.node ty tx cs) with
    | .error e => some e
    | .ok (some _) => none
    | .ok none => firstCallbackErrorL f cs

/-- `firstCallbackError` over a children list, left to right. -/
def firstCallbackErrorL {ε : Type} (f : ParseTree → Except ε (Option ParseTree)) :
    ParseTreeList → Option ε
  | .nil => none
  | .cons c cs =>
    match firstCallbackError f c with
    | some e => some e
    | none => firstCallbackErrorL f cs
end

/-! ## The document grammar -/

/-- The directive-opening brace character. -/
def lbraceChar : Char := Char.ofNat 123

/-- The directive-closing brace character. -/
def rbraceChar : Char := Char.ofNat 125

/-- A plain text leaf. -/
def textLeaf (s : String) : ParseTree := .node none (some s) .nil

/-- A one-character plain text leaf. -/
def charLeaf (c : Char) : ParseTree := textLeaf (String.singleton c)

/-- A children list of one-character text leaves. -/
def charsToLeaves : List Char → ParseTreeList
  | [] => .nil
  | c :: cs => .cons (charLeaf c) (charsToLeaves cs)

/-- The `Escape` node of the document grammar: its rendered text is the
two-character escape of the directive marker. -/
def escapeNode : ParseTree := .node (some "Escape") (some "\\$") .nil

/-- An Expression Directive node: a `LuaDirective` wrapping a
`LuaExpressionDirective` child whose rendered text is the raw expression. -/
def directiveNode (e : String) : ParseTree :=
  .node (some "LuaDirective") none
    (.cons (textLeaf ("$" ++ String.singleton lbraceChar))
      (.cons (.node (some "LuaExpressionDirective") (some e) .nil)
        (.cons (textLeaf (String.singleton rbraceChar)) .nil)))

/-- A reference node: a `WikiLink` wrapping a `WikiLinkPage` child whose
rendered text is the raw link target. -/
def wikiNode (inner : String) : ParseTree :=
  .node (some "WikiLink") none
    (.cons (textLeaf "[[")
      (.cons (.node (some "WikiLinkPage") (some inner) .nil)
        (.cons (textLeaf "]]") .nil)))

/-- Scanner mode for the modelled document grammar: plain text, inside a
directive (accumulated expression characters, reversed), or inside a
reference (accumulated target characters, reversed). -/
inductive ScanMode where
  | plain
  | directive (acc : List Char)
  | wiki (acc : List Char)

/-- Modelled from the spec: the document Parser's recognition of the three
marked node kinds the core requires — Expression Directives, the Escape
form of the directive marker, and references whose rendered text may hold a
directive.  Everything else is plain text. -/
def scan : ScanMode → List Char → ParseTreeList
  | .plain, [] => .nil
  | .directive acc, [] => charsToLeaves ('$' :: lbraceChar :: acc.reverse)
  | .wiki acc, [] => charsToLeaves ('[' :: '[' :: acc.reverse)
  | .plain, [c] => .cons (charLeaf c) .nil
  | .plain, c1 :: c2 :: rest =>
    if c1 == '\\' && c2 == '$' then .cons escapeNode (scan .plain rest)
    else if c1 == '$' && c2 == lbraceChar then scan (.directive []) rest
    else if c1 == '[' && c2 == '[' then scan (.wiki []) rest
    else .cons (charLeaf c1) (scan .plain (c2 :: rest))
  | .directive acc, c :: rest =>
    if c == rbraceChar then .cons (directiveNode (String.mk acc.reverse)) (scan .plain rest)
    else scan (.directive (c :: acc)) rest
  | .wiki acc, [c] => charsToLeaves ('[' :: '[' :: (c :: acc).reverse)
  | .wiki acc, c1 :: c2 :: rest =>
    if c1 == ']' && c2 == ']' then .cons (wikiNode (String.mk acc.reverse)) (scan .plain rest)
    else scan (.wiki (c1 :: acc)) (c2 :: rest)

/-- Modelled from the spec: the document Parser (text to tree).  It wraps
the scanned fragments in a `Document` root node. -/
def parseMarkdown (s : String) : ParseTree :=
  .node (some "Document") none (scan .plain s.data)

/-- Whether a character list contains one of the three markers the document
grammar recognizes: the escape digraph, the directive opener, or the
reference opener. -/
def hasMarkerChars : List Char → Bool
  | [] => false
  | [_] => false
  | c1 :: c2 :: rest =>
    ((c1 == '\\' && c2 == '$') || (c1 == '$' && c2 == lbraceChar) ||
      (c1 == '[' && c2 == '[')) || hasMarkerChars (c2 :: rest)

/-! ## Lua values, tables, environments, frames -/

mutual
/-- Modelled from the spec: values of the scripting language as the core
observes them — nil, numbers, strings, tables, and the possibly multi-valued
results an evaluation may produce. -/
inductive LuaValue where
  | nil
  | num (n : Int)
  | str (s : String)
  | table (t : LuaTable)
  | multi (vs : LuaValueList)

/-- Modelled from the spec: a `LuaTable` as an ordered mapping of string
keys to values (`Augmentation`: "an optional ordered mapping of extra
bindings supplied by a caller"). -/
inductive LuaTable where
  | tnil
  | tcons (k : String) (v : LuaValue) (rest : LuaTable)

/-- The values of a multi-valued result. -/
inductive LuaValueList where
  | lnil
  | lcons (v : LuaValue) (rest : LuaValueList)
end

/-- The keys of a table, in order (with possible repetitions, as iteration
over the underlying mapping would yield them). -/
def LuaTable.keys : LuaTable → List String
  | .tnil => []
  | .tcons k _ rest => k :: rest.keys

/-- Raw lookup in a table: the value of the first entry with the given key. -/
def LuaTable.rawGetOpt : LuaTable → String → Option LuaValue
  | .tnil, _ => none
  | .tcons k v rest, k' => if k = k' then some v else rest.rawGetOpt k'

/-- Raw lookup with the Lua default: a missing key reads as nil. -/
def LuaTable.rawGet (t : LuaTable) (k : String) : LuaValue :=
  (t.rawGetOpt k).getD .nil

/-- Modelled from the spec: an Environment is a mapping from name to value
with an optional parent for fallback lookup; the Global Environment is the
root. -/
inductive LuaEnv where
  | root (vars : List (String × LuaValue))
  | child (vars : List (String × LuaValue)) (parent : LuaEnv)

/-- First-match lookup in the bindings of one scope. -/
def lookupVar : List (String × LuaValue) → String → Option LuaValue
  | [], _ => none
  | (k, v) :: rest, k' => if k = k' then some v else lookupVar rest k'

/-- Replace the binding of a key in one scope, or append a new binding;
insertion order of the other bindings is kept. -/
def assocSet : List (String × LuaValue) → String → LuaValue → List (String × LuaValue)
  | [], k, v => [(k, v)]
  | (k0, v0) :: rest, k, v =>
    if k0 = k then (k0, v) :: rest else (k0, v0) :: assocSet rest k v

/-- Modelled from the spec: environment lookup with parent fallback; a name
defined nowhere reads as nil. -/
def LuaEnv.get : LuaEnv → String → LuaValue
  | .root vars, k => (lookupVar vars k).getD .nil
  | .child vars p, k =>
    match lookupVar vars k with
    | some v => v
    | none => p.get k

/-- Modelled from the spec: define (or overwrite) a binding locally in the
current scope, leaving the parent untouched. -/
def LuaEnv.setLocal : LuaEnv → String → LuaValue → LuaEnv
  | .root vars, k, v => .root (assocSet vars k v)
  | .child vars p, k, v => .child (assocSet vars k v) p

/-- Modelled from the spec: a Frame is the per-evaluation execution context
holding (through its thread-local mapping) a handle to the Global
Environment under the key `_GLOBAL`. -/
structure LuaStackFrame where
  threadLocal : List (String × LuaEnv)

/-- Thread-local lookup on a frame. -/
def LuaStackFrame.tlGet (sf : LuaStackFrame) (k : String) : Option LuaEnv :=
  match sf.threadLocal.find? (fun p => p.1 = k) with
  | some p => some p.2
  | none => none

/-! ## Errors -/

/-- The error kinds observable at the host/guest boundary: a generic host
error (`new Error(...)`), a parse error of the expression grammar, and the
`LuaRuntimeError` the bridge raises. -/
inductive LuaError where
  | plain (msg : String)
  | parseError (msg : String)
  | luaRuntime (msg : String)
deriving DecidableEq

/-- The `.message` of an error, as the wrapping code reads it. -/
def LuaError.message : LuaError → String
  | .plain m => m
  | .parseError m => m
  | .luaRuntime m => m

/-! ## Value conversion and stringification -/

/-- Modelled from the spec: host-level values produced by the defined
conversion table.  Tables keep their entries as a host object. -/
inductive JSValue where
  | null
  | num (n : Int)
  | str (s : String)
  | obj (t : LuaTable)

/-- Modelled from the spec: `singleResult` reduces a possibly multi-valued
evaluation result to a single value — the first value of a multi-valued
result (nil when empty), the value itself otherwise. -/
def singleResult : LuaValue → LuaValue
  | .multi .lnil => .nil
  | .multi (.lcons v _) => v
  | v => v

/-- Modelled from the spec: `luaValueToJS` converts a scripting-language
value to a host-level value via the defined conversion table; a multi-valued
input converts through its first value. -/
def luaValueToJS : LuaValue → JSValue
  | .nil => .null
  | .num n => .num n
  | .str s => .str s
  | .table t => .obj t
  | .multi .lnil => .null
  | .multi (.lcons v _) => luaValueToJS v

/-- Modelled from the spec: `luaToString`, the scripting language's string
conversion of a (converted) value. -/
def luaToString : JSValue → String
  | .null => "nil"
  | .num n => toString n
  | .str s => s
  | .obj _ => "table"

/-! ## The Lua expression grammar and evaluator -/

/-- Modelled from the spec: the AST of the external expression grammar, as
far as the core's contract needs it — literals, variable references and
field access. -/
inductive LuaExpression where
  | numLit (n : Int)
  | strLit (s : String)
  | varRef (name : String)
  | index (obj : LuaExpression) (field : String)

/-- Identifier characters of the expression grammar. -/
def isIdentChar (c : Char) : Bool := c.isAlphanum || c == '_'

/-- A nonempty identifier: a letter or underscore, then identifier
characters. -/
def isIdent : List Char → Bool
  | [] => false
  | c :: cs => (c.isAlpha || c == '_') && cs.all isIdentChar

/-- Integer value of a nonempty digit list. -/
def digitsToInt (cs : List Char) : Int :=
  Int.ofNat (cs.foldl (fun acc c => acc * 10 + (c.toNat - 48)) 0)

/-- Modelled from the spec: `parseExpressionString`, the external Expression
Parser (text to AST); it fails with a ParseError on malformed input.  The
modelled grammar covers integer literals, double-quoted string literals,
and dotted paths of identifiers. -/
def parseExpressionString (s : String) : Except LuaError LuaExpression :=
  let cs := s.data
  if cs ≠ [] ∧ cs.all Char.isDigit then .ok (.numLit (digitsToInt cs))
  else if 2 ≤ cs.length ∧ cs.headI = '"' ∧ cs.getLastI = '"' ∧
      (cs.drop 1).dropLast.all (fun c => c ≠ '"') then
    .ok (.strLit (String.mk ((cs.drop 1).dropLast)))
  else
    match cs.splitOn '.' with
    | [] => .error (.parseError ("Lua parse error in: " ++ s))
    | p :: ps =>
      if (p :: ps).all isIdent then
        .ok (ps.foldl (fun e part => .index e (String.mk part)) (.varRef (String.mk p)))
      else .error (.parseError ("Lua parse error in: " ++ s))

/-- Modelled from the spec: `evalExpression`, the external Evaluator (AST,
Environment, Frame to value).  Variable references read from the
environment with parent fallback; field access indexes a table value and
fails on a non-table. -/
def evalExpression : LuaExpression → LuaEnv → LuaStackFrame → Except LuaError LuaValue
  | .numLit n, _, _ => .ok (.num n)
  | .strLit s, _, _ => .ok (.str s)
  | .varRef name, env, _ => .ok (env.get name)
  | .index e field, env, sf =>
    match evalExpression e env sf with
    | .error err => .error err
    | .ok v =>
      match v with
      | .table t => .ok (t.rawGet field)
      | _ => .error (.luaRuntime ("Attempting to index a non-table value via " ++ field))

/-! ## `space_lua.ts`: the translated source functions -/

/-- Translation of `createAugmentedEnv` (space_lua.ts): read the Global
Environment handle from the frame's thread-local `_GLOBAL` (a missing
handle throws the generic `Error("_GLOBAL not defined")`); build a child
scope whose parent is the global environment; when an augmentation is
given, bind it wholesale under `_` and then project each of its top-level
entries as a local binding, in key order. -/
def createAugmentedEnv (sf : LuaStackFrame) (envAugmentation : Option LuaTable) :
    Except LuaError LuaEnv :=
  match sf.tlGet "_GLOBAL" with
  | none => .error (.plain "_GLOBAL not defined")
  | some globalEnv =>
    let env := LuaEnv.child [] globalEnv
    match envAugmentation with
    | none => .ok env
    | some aug =>
      let env := env.setLocal "_" (.table aug)
      .ok (aug.keys.foldl (fun e k => e.setLocal k (aug.rawGet k)) env)

/-- The `try` block of `evaluateExpression` (space_lua.ts): parse the
expression text, build the augmented scope, evaluate, reduce to a single
value, convert to a host value, stringify, and re-parse the string with the
document grammar. -/
def evaluateExpressionBody (sf : LuaStackFrame) (expr : String)
    (envAugmentation : Option LuaTable) : Except LuaError ParseTree := do
  let parsedExpr ← parseExpressionString expr
  let env ← createAugmentedEnv sf envAugmentation
  let r ← evalExpression parsedExpr env sf
  let luaResult := luaValueToJS (singleResult r)
  let result := luaToString luaResult
  pure (parseMarkdown result)

/-- Translation of `evaluateExpression` (space_lua.ts): run the `try`
block; any failure of any stage is caught and re-raised as one
`LuaRuntimeError` carrying the original expression text and the cause's
message. -/
def evaluateExpression (sf : LuaStackFrame) (expr : String)
    (envAugmentation : Option LuaTable) : Except LuaError ParseTree :=
  match evaluateExpressionBody sf expr envAugmentation with
  | .ok t => .ok t
  | .error e =>
    .error (.luaRuntime ("Error evaluating \"" ++ expr ++ "\": " ++ e.message))

/-- Translation of the visitor `interpolateLuaString` passes to
`replaceNodesMatchingAsync` (space_lua.ts): an Expression Directive with an
inner raw-expression child is replaced by `evaluateExpression` of that
child's rendered text; an `Escape` node rendering as the two-character
escape of the marker is replaced by `parseMarkdown "$"`; a `WikiLinkPage`
node's rendered text is re-parsed standalone and, when an inner directive
is found, substituted via `evaluateExpression`; every other node is left
alone. -/
def interpCallback (sf : LuaStackFrame) (envAugmentation : Option LuaTable)
    (n : ParseTree) : Except LuaError (Option ParseTree) :=
  if n.type = some "LuaDirective" then
    match findNodeOfType n "LuaExpressionDirective" with
    | some expressionNode =>
      match evaluateExpression sf (renderToText expressionNode) envAugmentation with
      | .ok t => .ok (some t)
      | .error e => .error e
    | none => .ok none
  else if n.type = some "Escape" ∧ renderToText n = "\\$" then
    .ok (some (parseMarkdown "$"))
  else if n.type = some "WikiLinkPage" then
    let wikiLink := renderToText n
    let parsedWikiLink := parseMarkdown wikiLink
    match findNodeOfType parsedWikiLink "LuaExpressionDirective" with
    | some expressionNode =>
      match evaluateExpression sf (renderToText expressionNode) envAugmentation with
      | .ok t => .ok (some t)
      | .error e => .error e
    | none => .ok none
  else .ok none

/-- Translation of `interpolateLuaString` (space_lua.ts): parse the
template, substitute directives in one traversal, render the substituted
tree back to text. -/
def interpolateLuaString (sf : LuaStackFrame) (template : String)
    (envAugmentation : Option LuaTable) : Except LuaError String :=
  match replaceNodesMatching (interpCallback sf envAugmentation) (parseMarkdown template) with
  | .error e => .error e
  | .ok parsed => .ok (renderToText parsed)

/-- Translation of the `spacelua.evalExpression` builtin (space_lua.ts):
build the augmented scope from the calling frame, evaluate the
already-parsed expression, and convert the result to a host value.  Errors
are not wrapped here. -/
def spaceluaEvalExpression (sf : LuaStackFrame) (parsedExpr : LuaExpression)
    (envAugmentation : Option LuaTable) : Except LuaError JSValue :=
  match createAugmentedEnv sf envAugmentation with
  | .error e => .error e
  | .ok env =>
    match evalExpression parsedExpr env sf with
    | .error e => .error e
    | .ok v => .ok (luaValueToJS v)

/-- Modelled from the spec: the ambient execution-context identity
(`location`): absent in a headless/server execution, otherwise a protocol
and a host. -/
structure JSLocation where
  protocol : String
  host : String

/-- Translation of the `spacelua.baseUrl` builtin (space_lua.ts): `null`
when the execution context has no `location`, else
`location.protocol + "//" + location.host`.  It is a total, pure function:
it has no failure mode and mutates nothing. -/
def baseUrl (location : Option JSLocation) : Option String :=
  match location with
  | none => none
  | some loc => some (loc.protocol ++ "//" ++ loc.host)

/-! ## `attribute.ts`: extractAttributes -/

/-- The text of a node's first child, as the source's
`node.children![0].text!` reads it; the TypeScript non-null assertions are
modelled as failures of the surrounding call. -/
def firstChildText : ParseTree → Except String String
  | .node _ _ (.cons (.node _ (some tx) _) _) => .ok tx
  | _ => .error "TypeError: no first child with text"

/-- Whether an `Except` holds a success. -/
def isOkB {ε α : Type} : Except ε α → Bool
  | .ok _ => true
  | .error _ => false

/-- Replace-or-append update of an association list, keeping insertion
order: the semantics of a JavaScript object key assignment. -/
def setEntry {α : Type} : List (String × α) → String → α → List (String × α)
  | [], k, v => [(k, v)]
  | (k0, v0) :: rest, k, v =>
    if k0 = k then (k0, v) :: rest else (k0, v0) :: setEntry rest k v

mutual
/-- Translation of `extractAttributes` (attribute.ts), with the external
`traverseTreeAsync` (modelled from the spec: pre-order traversal; a `true`
result of the visitor stops descent into the node's children) inlined into
the recursion, and the reference-inequality guard `tree !== n` rendered as
the `isRoot` flag (only the root object itself is reference-equal to
`tree`).  The YAML facility and `cleanupJSON` are parameters.  The state is
the collected attribute mapping together with the `console.error` log of
`(value, error)` pairs for attribute values whose YAML parse failed. -/
def extractGo {α : Type} (yaml : String → Except String α) (cleanup : α → α) :
    Bool → ParseTree → List (String × α) × List (String × String) →
    Except String (List (String × α) × List (String × String))
  | isRoot, .node ty tx cs, st =>
    if isRoot = false ∧ ty = some "ListItem" then .ok st
    else if ty = some "Attribute" then
      match findNodeOfType (.node ty tx cs) "AttributeName",
            findNodeOfType (.node ty tx cs) "AttributeValue" with
      | some nameNode, some valueNode =>
        match firstChildText nameNode with
        | .error e => .error e
        | .ok name =>
          match firstChildText valueNode with
          | .error e => .error e
          | .ok val =>
            match yaml val with
            | .ok y => .ok (setEntry st.1 name (cleanup y), st.2)
            | .error e => .ok (st.1, st.2 ++ [(val, e)])
      | _, _ => .ok st
    else extractGoL yaml cleanup cs st

/-- The traversal of `extractAttributes` over a children list; every child
is a non-root node. -/
def extractGoL {α : Type} (yaml : String → Except String α) (cleanup : α → α) :
    ParseTreeList → List (String × α) × List (String × String) →
    Except String (List (String × α) × List (String × String))
  | .nil, st => .ok st
  | .cons c cs, st =>
    match extractGo yaml cleanup false c st with
    | .error e => .error e
    | .ok st' => extractGoL yaml cleanup cs st'
end

/-- Translation of `extractAttributes` (attribute.ts): run the traversal
from the root with an empty attribute mapping and an empty log. -/
def extractAttributes {α : Type} (yaml : String → Except String α)
    (cleanup : α → α) (tree : ParseTree) :
    Except String (List (String × α) × List (String × String)) :=
  extractGo yaml cleanup true tree ([], [])

mutual
/-- The `(name, raw value)` pairs of the attribute nodes the traversal of
`extractAttributes` reaches, in traversal order: nested `ListItem` subtrees
are skipped, `Attribute` nodes are terminal. -/
def attrList : Bool → ParseTree → List (String × String)
  | isRoot, .node ty tx cs =>
    if isRoot = false ∧ ty = some "ListItem" then []
    else if ty = some "Attribute" then
      match findNodeOfType (.node ty tx cs) "AttributeName",
            findNodeOfType (.node ty tx cs) "AttributeValue" with
      | some nameNode, some valueNode =>
        match firstChildText nameNode, firstChildText valueNode with
        | .ok name, .ok val => [(name, val)]
        | _, _ => []
      | _, _ => []
    else attrListL cs

/-- `attrList` over a children list. -/
def attrListL : ParseTreeList → List (String × String)
  | .nil => []
  | .cons c cs => attrList false c ++ attrListL cs
end

/-- One step of rebuilding the attribute mapping from a `(name, raw value)`
pair: a successful YAML parse updates the mapping, a failing one only
appends to the log. -/
def attrStep {α : Type} (yaml : String → Except String α) (cleanup : α → α)
    (st : List (String × α) × List (String × String)) (p : String × String) :
    List (String × α) × List (String × String) :=
  match yaml p.2 with
  | .ok y => (setEntry st.1 p.1 (cleanup y), st.2)
  | .error e => (st.1, st.2 ++ [(p.2, e)])

/-- The attribute mapping and log built from a `(name, raw value)` list. -/
def buildAttrs {α : Type} (yaml : String → Except String α) (cleanup : α → α)
    (l : List (String × String)) :
    List (String × α) × List (String × String) :=
  l.foldl (attrStep yaml cleanup) ([], [])

mutual
/-- Well-formedness needed by the TypeScript non-null assertions of
`extractAttributes`: every `AttributeName` or `AttributeValue` node of the
tree has a first child carrying text. -/
def wellFormedA : ParseTree → Bool
  | .node ty tx cs =>
    (if ty = some "AttributeName" ∨ ty = some "AttributeValue" then
      isOkB (firstChildText (.node ty tx cs))
    else true) && wellFormedAL cs

/-- `wellFormedA` over a children list. -/
def wellFormedAL : ParseTreeList → Bool
  | .nil => true
  | .cons c cs => wellFormedA c && wellFormedAL cs
end

/-! ## Shared concrete inputs for witnesses -/

/-- A frame whose thread-local mapping carries a (bare) Global Environment. -/
def sfG : LuaStackFrame := ⟨[("_GLOBAL", .root [])]⟩

/-! ## C9 -/

/-- C9: `baseUrl` returns none (null) exactly in a context with no location
concept, and otherwise the origin identifier `protocol ++ "//" ++ host`;
being a total pure function of the ambient location, it has no other
failure mode and mutates nothing. -/
theorem baseUrl_spec :
    baseUrl none = none ∧ ∀ p h, baseUrl (some ⟨p, h⟩) = some (p ++ "//" ++ h) :=
  ⟨rfl, fun _ _ => rfl⟩

/-! ## C2 -/

/-- C2: every error `evaluate` lets reach its caller is a single
`LuaRuntimeError` whose message is exactly
`Error evaluating "<expr>": <cause message>`; no stage-specific error kind
escapes the boundary. -/
theorem evaluateExpression_wraps_errors (sf : LuaStackFrame) (e : String)
    (aug : Option LuaTable) (err : LuaError)
    (h : evaluateExpression sf e aug = .error err) :
    ∃ m, err = .luaRuntime ("Error evaluating \"" ++ e ++ "\": " ++ m) := by
  revert h
  unfold evaluateExpression
  cases hx : evaluateExpressionBody sf e aug with
  | ok t => intro h; exact absurd h (by simp)
  | error e0 =>
    intro h
    injection h with h1
    exact ⟨e0.message, h1.symm⟩

/-- Witness for C2 at the spec's example input `1+`. -/
theorem evaluateExpression_wraps_errors_witness :
    ∃ m, LuaError.luaRuntime "Error evaluating \"1+\": Lua parse error in: 1+" =
      .luaRuntime ("Error evaluating \"1+\": " ++ m) :=
  evaluateExpression_wraps_errors sfG "1+" none _ rfl

/-! ## C7 -/

/-- C7: a successfully evaluated directive expression splices exactly the
re-parse (with the document grammar) of the display string of the host
conversion of the single-value reduction of the evaluation result — never
raw unescaped text. -/
theorem evaluateExpression_splices_reparsed (sf : LuaStackFrame) (e : String)
    (aug : Option LuaTable) (t : ParseTree)
    (h : evaluateExpression sf e aug = .ok t) :
    ∃ ast env r, parseExpressionString e = .ok ast ∧
      createAugmentedEnv sf aug = .ok env ∧
      evalExpression ast env sf = .ok r ∧
      t = parseMarkdown (luaToString (luaValueToJS (singleResult r))) := by
  have hb : evaluateExpressionBody sf e aug = .ok t := by
    revert h
    unfold evaluateExpression
    cases hx : evaluateExpressionBody sf e aug with
    | ok t' => intro h; exact h
    | error e0 => intro h; exact absurd h (by simp)
  unfold evaluateExpressionBody at hb
  cases hp : parseExpressionString e with
  | error e0 =>
    rw [hp] at hb; simp only [Bind.bind, Except.bind] at hb
    exact absurd hb (by simp)
  | ok ast =>
    rw [hp] at hb; simp only [Bind.bind, Except.bind] at hb
    cases hc : createAugmentedEnv sf aug with
    | error e0 =>
      rw [hc] at hb; simp only at hb
      exact absurd hb (by simp)
    | ok env =>
      rw [hc] at hb; simp only at hb
      cases hv : evalExpression ast env sf with
      | error e0 =>
        rw [hv] at hb; simp only at hb
        exact absurd hb (by simp)
      | ok r =>
        rw [hv] at hb; simp only [pure, Except.pure] at hb
        injection hb with h1
        exact ⟨ast, env, r, rfl, rfl, hv, h1.symm⟩

/-- Witness for C7 at the concrete expression `1`. -/
theorem evaluateExpression_splices_reparsed_witness :
    ∃ ast env r, parseExpressionString "1" = .ok ast ∧
      createAugmentedEnv sfG none = .ok env ∧
      evalExpression ast env sfG = .ok r ∧
      parseMarkdown "1" = parseMarkdown (luaToString (luaValueToJS (singleResult r))) :=
  evaluateExpression_splices_reparsed sfG "1" none (parseMarkdown "1") rfl

/-! ## C1 -/

/-- C1 (amended): with no `_GLOBAL` handle on the frame,
`createAugmentedEnv` (the scope builder behind every entry point) throws
the generic `Error("_GLOBAL not defined")` — not a distinct typed error
kind — and evaluation never proceeds; `evaluate` converts that error into a
`LuaRuntimeError` whose message carries the cause, while the
`evalExpression` builtin lets the generic error through unconverted. -/
theorem noGlobal_behavior (sf : LuaStackFrame) (aug : Option LuaTable)
    (h : sf.tlGet "_GLOBAL" = none) :
    createAugmentedEnv sf aug = .error (.plain "_GLOBAL not defined")
    ∧ (∀ e t, evaluateExpression sf e aug ≠ .ok t)
    ∧ (∀ e ast, parseExpressionString e = .ok ast →
        evaluateExpression sf e aug =
          .error (.luaRuntime ("Error evaluating \"" ++ e ++ "\": " ++ "_GLOBAL not defined")))
    ∧ (∀ ast, spaceluaEvalExpression sf ast aug = .error (.plain "_GLOBAL not defined")) := by
  have hc : createAugmentedEnv sf aug = .error (.plain "_GLOBAL not defined") := by
    unfold createAugmentedEnv; rw [h]
  have hbody : ∀ e ast, parseExpressionString e = .ok ast →
      evaluateExpressionBody sf e aug = .error (.plain "_GLOBAL not defined") := by
    intro e ast hp
    unfold evaluateExpressionBody
    rw [hp]; simp only [Bind.bind, Except.bind]; rw [hc]
  refine ⟨hc, ?_, ?_, ?_⟩
  · intro e t hok
    unfold evaluateExpression at hok
    cases hp : parseExpressionString e with
    | error e0 =>
      have : evaluateExpressionBody sf e aug = .error e0 := by
        unfold evaluateExpressionBody; rw [hp]; simp only [Bind.bind, Except.bind]
      rw [this] at hok; exact absurd hok (by simp)
    | ok ast =>
      rw [hbody e ast hp] at hok; exact absurd hok (by simp)
  · intro e ast hp
    unfold evaluateExpression
    rw [hbody e ast hp]
    rfl
  · intro ast
    unfold spaceluaEvalExpression
    rw [hc]

/-- Witness for C1's amended statement at a frame with an empty
thread-local mapping. -/
theorem noGlobal_behavior_witness :
    createAugmentedEnv ⟨[]⟩ none = .error (.plain "_GLOBAL not defined")
    ∧ evaluateExpression ⟨[]⟩ "1" none =
        .error (.luaRuntime "Error evaluating \"1\": _GLOBAL not defined") :=
  ⟨(noGlobal_behavior ⟨[]⟩ none rfl).1,
   (noGlobal_behavior ⟨[]⟩ none rfl).2.2.1 "1" (.numLit 1) rfl⟩

/-- Counterexample to C1 as stated: the failure raised on a missing Global
Environment handle is the generic `Error("_GLOBAL not defined")`, not a
distinct typed error kind; `evaluate` converts it into a `LuaRuntimeError`
before it reaches the caller; and `interpolate` on a directive-free
template proceeds and succeeds even with no Global Environment handle. -/
theorem noGlobal_counterexample :
    createAugmentedEnv ⟨[]⟩ none = .error (.plain "_GLOBAL not defined")
    ∧ evaluateExpression ⟨[]⟩ "1" none =
        .error (.luaRuntime "Error evaluating \"1\": _GLOBAL not defined")
    ∧ (LuaError.luaRuntime "Error evaluating \"1\": _GLOBAL not defined" ≠
        LuaError.plain "_GLOBAL not defined")
    ∧ interpolateLuaString ⟨[]⟩ "hello" none = .ok "hello" :=
  ⟨rfl, rfl, by decide, rfl⟩

/-! ## C8 -/

/-- C8: a node the visitor substitutes is terminal for the traversal — the
replacement fragment is spliced verbatim, with no re-scan of its content
for further directives. -/
theorem substituted_node_terminal (sf : LuaStackFrame) (aug : Option LuaTable)
    (n r : ParseTree) (h : interpCallback sf aug n = .ok (some r)) :
    replaceNodesMatching (interpCallback sf aug) n = .ok r := by
  cases n with
  | node ty tx cs =>
    unfold replaceNodesMatching
    rw [h]

/-- Witness for C8: a directive whose evaluation produces text containing a
directive marker; the spliced fragment still holds an unevaluated
`LuaDirective` node. -/
theorem substituted_node_terminal_witness :
    interpCallback sfG (some (.tcons "x" (.str "$\x7b1\x7d") .tnil)) (directiveNode "x") =
      .ok (some (parseMarkdown "$\x7b1\x7d"))
    ∧ replaceNodesMatching (interpCallback sfG (some (.tcons "x" (.str "$\x7b1\x7d") .tnil)))
        (directiveNode "x") = .ok (parseMarkdown "$\x7b1\x7d")
    ∧ findNodeOfType (parseMarkdown "$\x7b1\x7d") "LuaDirective" = some (directiveNode "1") :=
  ⟨rfl, substituted_node_terminal sfG _ _ _ rfl, rfl⟩

/-! ## C5 -/

/-- C5: every `Escape` node whose rendered text is the two-character escape
of the directive marker is replaced by the re-parse of the single-character
marker, and `interpolate` of the input consisting of that escape returns
the marker. -/
theorem escape_replaced_by_marker (sf : LuaStackFrame) (aug : Option LuaTable) :
    (∀ n : ParseTree, n.type = some "Escape" → renderToText n = "\\$" →
      interpCallback sf aug n = .ok (some (parseMarkdown "$")))
    ∧ interpolateLuaString sf "\\$" aug = .ok "$" := by
  constructor
  · intro n h1 h2
    cases n with
    | node ty tx cs =>
      simp only [ParseTree.type] at h1
      subst h1
      simp [interpCallback, ParseTree.type, h2]
  · rfl

/-- Witness for C5 at the `Escape` node itself and a concrete frame. -/
theorem escape_replaced_by_marker_witness :
    interpCallback sfG none escapeNode = .ok (some (parseMarkdown "$"))
    ∧ interpolateLuaString sfG "\\$" none = .ok "$" :=
  ⟨(escape_replaced_by_marker sfG none).1 escapeNode rfl rfl,
   (escape_replaced_by_marker sfG none).2⟩

/-! ## C3: traversal failure lemmas -/

mutual
/-- If the traversal meets no visitor error, the replacement succeeds. -/
theorem noErr_replace_ok {ε : Type} (f : ParseTree → Except ε (Option ParseTree)) :
    ∀ t : ParseTree, firstCallbackError f t = none →
      ∃ t', replaceNodesMatching f t = .ok t'
  | .node ty tx cs, h => by
    unfold firstCallbackError at h
    unfold replaceNodesMatching
    cases hf : f (.node ty tx cs) with
    | error e0 => rw [hf] at h; exact absurd h (by simp)
    | ok o =>
      cases o with
      | some r => exact ⟨r, rfl⟩
      | none =>
        rw [hf] at h
        obtain ⟨cs', hcs⟩ := noErrL_replaceL_ok f cs h
        rw [hcs]
        exact ⟨.node ty tx cs', rfl⟩

/-- List version of `noErr_replace_ok`. -/
theorem noErrL_replaceL_ok {ε : Type} (f : ParseTree → Except ε (Option ParseTree)) :
    ∀ l : ParseTreeList, firstCallbackErrorL f l = none →
      ∃ l', replaceNodesMatchingL f l = .ok l'
  | .nil, _ => ⟨.nil, rfl⟩
  | .cons c cs, h => by
    unfold firstCallbackErrorL at h
    unfold replaceNodesMatchingL
    cases hf : firstCallbackError f c with
    | some e0 => rw [hf] at h; exact absurd h (by simp)
    | none =>
      rw [hf] at h
      obtain ⟨c', hc⟩ := noErr_replace_ok f c hf
      rw [hc]
      obtain ⟨cs', hcs⟩ := noErrL_replaceL_ok f cs h
      rw [hcs]
      exact ⟨.cons c' cs', rfl⟩
end

mutual
/-- The first visitor error met by the traversal fails the whole
replacement with exactly that error. -/
theorem firstErr_replace {ε : Type} (f : ParseTree → Except ε (Option ParseTree)) :
    ∀ (t : ParseTree) (e : ε), firstCallbackError f t = some e →
      replaceNodesMatching f t = .error e
  | .node ty tx cs, e, h => by
    unfold firstCallbackError at h
    unfold replaceNodesMatching
    cases hf : f (.node ty tx cs) with
    | error e0 =>
      rw [hf] at h
      injection h with h1
      rw [h1]
    | ok o =>
      cases o with
      | some r => rw [hf] at h; exact absurd h (by simp)
      | none =>
        rw [hf] at h
        rw [firstErrL_replaceL f cs e h]

/-- List version of `firstErr_replace`. -/
theorem firstErrL_replaceL {ε : Type} (f : ParseTree → Except ε (Option ParseTree)) :
    ∀ (l : ParseTreeList) (e : ε), firstCallbackErrorL f l = some e →
      replaceNodesMatchingL f l = .error e
  | .nil, e, h => by exact absurd h (by simp [firstCallbackErrorL])
  | .cons c cs, e, h => by
    unfold firstCallbackErrorL at h
    unfold replaceNodesMatchingL
    cases hf : firstCallbackError f c with
    | some e0 =>
      rw [hf] at h
      injection h with h1
      subst h1
      rw [firstErr_replace f c e0 hf]
    | none =>
      rw [hf] at h
      obtain ⟨c', hc⟩ := noErr_replace_ok f c hf
      rw [hc]
      rw [firstErrL_replaceL f cs e h]
end

/-! ## C3 -/

/-- C3: when the traversal of a template meets a failing directive (the
first visitor error is `e`), the whole `interpolate` call fails with that
error and returns no string: there is no partial-substitution success
mode. -/
theorem interpolate_fails_whole (sf : LuaStackFrame) (template : String)
    (aug : Option LuaTable) (e : LuaError)
    (h : firstCallbackError (interpCallback sf aug) (parseMarkdown template) = some e) :
    interpolateLuaString sf template aug = .error e
    ∧ ∀ s, interpolateLuaString sf template aug ≠ .ok s := by
  have hr := firstErr_replace (interpCallback sf aug) (parseMarkdown template) e h
  constructor
  · unfold interpolateLuaString
    rw [hr]
  · intro s hs
    unfold interpolateLuaString at hs
    rw [hr] at hs
    exact absurd hs (by simp)

/-- Witness for C3: a template with one malformed directive; the whole call
fails with the wrapped error (whose message carries the expression text). -/
theorem interpolate_fails_whole_witness :
    interpolateLuaString sfG "$\x7b1+\x7d" none =
      .error (.luaRuntime "Error evaluating \"1+\": Lua parse error in: 1+") :=
  (interpolate_fails_whole sfG "$\x7b1+\x7d" none
    (.luaRuntime "Error evaluating \"1+\": Lua parse error in: 1+") rfl).1

/-! ## C6: pass-through lemmas -/

/-- On marker-free text the scanner produces only one-character text
leaves. -/
theorem scan_no_marker : ∀ cs : List Char, hasMarkerChars cs = false →
    scan .plain cs = charsToLeaves cs
  | [], _ => rfl
  | [_], _ => rfl
  | c1 :: c2 :: rest, h => by
    unfold hasMarkerChars at h
    simp only [Bool.or_eq_false_iff] at h
    obtain ⟨⟨⟨hA, hB⟩, hC⟩, hrest⟩ := h
    unfold scan
    simp only [hA, hB, hC, if_false, Bool.false_eq_true]
    rw [scan_no_marker (c2 :: rest) hrest]
    rfl

/-- The interpolation visitor leaves one-character text leaves unchanged. -/
theorem replaceL_leaves (sf : LuaStackFrame) (aug : Option LuaTable) :
    ∀ cs : List Char,
      replaceNodesMatchingL (interpCallback sf aug) (charsToLeaves cs) =
        .ok (charsToLeaves cs)
  | [] => rfl
  | c :: cs => by
    show replaceNodesMatchingL _ (.cons (charLeaf c) (charsToLeaves cs)) = _
    unfold replaceNodesMatchingL
    rw [show replaceNodesMatching (interpCallback sf aug) (charLeaf c) =
          .ok (charLeaf c) from rfl]
    rw [replaceL_leaves sf aug cs]
    rfl

/-! ## C6 -/

/-- C6: on a template containing none of the directive, escape or reference
markers, `interpolate` performs no substitution at any node and returns
exactly the parse/render round-trip of the input. -/
theorem interpolate_passthrough (sf : LuaStackFrame) (aug : Option LuaTable)
    (s : String) (h : hasMarkerChars s.data = false) :
    interpolateLuaString sf s aug = .ok (renderToText (parseMarkdown s)) := by
  unfold interpolateLuaString parseMarkdown
  rw [scan_no_marker s.data h]
  unfold replaceNodesMatching
  rw [show interpCallback sf aug
        (.node (some "Document") none (charsToLeaves s.data)) = .ok none from rfl]
  rw [replaceL_leaves sf aug s.data]

/-- Witness for C6 at a concrete marker-free template. -/
theorem interpolate_passthrough_witness :
    interpolateLuaString sfG "hello world" none =
      .ok (renderToText (parseMarkdown "hello world")) :=
  interpolate_passthrough sfG none "hello world" rfl

/-! ## C4: environment lemmas -/

/-- Looking up the key just set finds the new value. -/
theorem lookupVar_assocSet_self : ∀ (vars : List (String × LuaValue)) (k : String)
    (v : LuaValue), lookupVar (assocSet vars k v) k = some v
  | [], k, v => by simp [assocSet, lookupVar]
  | (k0, v0) :: rest, k, v => by
    by_cases hk : k0 = k
    · subst hk; simp [assocSet, lookupVar]
    · simp [assocSet, hk, lookupVar, lookupVar_assocSet_self rest k v]

/-- Setting one key does not change the lookup of another. -/
theorem lookupVar_assocSet_ne : ∀ (vars : List (String × LuaValue)) (k : String)
    (v : LuaValue) (k' : String), k ≠ k' →
    lookupVar (assocSet vars k v) k' = lookupVar vars k'
  | [], k, v, k', h => by simp [assocSet, lookupVar, h]
  | (k0, v0) :: rest, k, v, k', h => by
    by_cases hk : k0 = k
    · subst hk; simp [assocSet, lookupVar, h]
    · simp [assocSet, hk, lookupVar, lookupVar_assocSet_ne rest k v k' h]

/-- A locally set binding is read back. -/
theorem LuaEnv.get_setLocal_self : ∀ (env : LuaEnv) (k : String) (v : LuaValue),
    (env.setLocal k v).get k = v
  | .root vars, k, v => by simp [LuaEnv.setLocal, LuaEnv.get, lookupVar_assocSet_self]
  | .child vars p, k, v => by simp [LuaEnv.setLocal, LuaEnv.get, lookupVar_assocSet_self]

/-- A locally set binding does not change the reading of another name. -/
theorem LuaEnv.get_setLocal_ne : ∀ (env : LuaEnv) (k : String) (v : LuaValue)
    (k' : String), k ≠ k' → (env.setLocal k v).get k' = env.get k'
  | .root vars, k, v, k', h => by
    simp [LuaEnv.setLocal, LuaEnv.get, lookupVar_assocSet_ne vars k v k' h]
  | .child vars p, k, v, k', h => by
    simp [LuaEnv.setLocal, LuaEnv.get, lookupVar_assocSet_ne vars k v k' h]

/-- Projecting a key list into a scope leaves the reading of a name not in
the list untouched. -/
theorem foldSet_get_not_mem (aug : LuaTable) : ∀ (ks : List String) (env : LuaEnv)
    (k : String), k ∉ ks →
    (ks.foldl (fun e k' => e.setLocal k' (aug.rawGet k')) env).get k = env.get k
  | [], _, _, _ => rfl
  | a :: ks, env, k, h => by
    have h1 : k ∉ ks := fun hm => h (List.mem_cons_of_mem a hm)
    have h2 : a ≠ k := fun he => h (he ▸ List.mem_cons_self a ks)
    simp only [List.foldl_cons]
    rw [foldSet_get_not_mem aug ks _ k h1, LuaEnv.get_setLocal_ne _ _ _ _ h2]

/-- Projecting a key list into a scope makes every listed key read its raw
table value. -/
theorem foldSet_get_mem (aug : LuaTable) : ∀ (ks : List String) (env : LuaEnv)
    (k : String), k ∈ ks →
    (ks.foldl (fun e k' => e.setLocal k' (aug.rawGet k')) env).get k = aug.rawGet k
  | [], _, k, h => absurd h (List.not_mem_nil k)
  | a :: ks, env, k, h => by
    by_cases hm : k ∈ ks
    · simp only [List.foldl_cons]
      exact foldSet_get_mem aug ks _ k hm
    · have ha : a = k := by
        rcases List.mem_cons.mp h with h' | h'
        · exact h'.symm
        · exact absurd h' hm
      subst ha
      simp only [List.foldl_cons]
      rw [foldSet_get_not_mem aug ks _ a hm, LuaEnv.get_setLocal_self]

/-- A key with a raw value is among the table's keys. -/
theorem rawGetOpt_some_mem : ∀ (t : LuaTable) (k : String) (v : LuaValue),
    t.rawGetOpt k = some v → k ∈ t.keys
  | .tnil, k, v, h => by simp [LuaTable.rawGetOpt] at h
  | .tcons k0 v0 rest, k, v, h => by
    unfold LuaTable.rawGetOpt at h
    by_cases hk : k0 = k
    · subst hk; simp [LuaTable.keys]
    · rw [if_neg hk] at h
      simp only [LuaTable.keys, List.mem_cons]
      exact Or.inr (rawGetOpt_some_mem rest k v h)

/-! ## C4 -/

/-- C4: with an augmentation table, every top-level key is individually
addressable in the new scope (evaluating the variable yields its value) and
the whole augmentation is bound under the reserved name `_` (evaluating
`_.key` yields the same value); stated for keys of an augmentation that
does not itself use the reserved name. -/
theorem augmentation_dual_access (sf : LuaStackFrame) (g : LuaEnv) (aug : LuaTable)
    (k : String) (v : LuaValue)
    (hg : sf.tlGet "_GLOBAL" = some g)
    (hk : aug.rawGetOpt k = some v)
    (hu : "_" ∉ aug.keys) :
    spaceluaEvalExpression sf (.varRef k) (some aug) = .ok (luaValueToJS v)
    ∧ spaceluaEvalExpression sf (.index (.varRef "_") k) (some aug) = .ok (luaValueToJS v) := by
  have hmem : k ∈ aug.keys := rawGetOpt_some_mem aug k v hk
  have hraw : aug.rawGet k = v := by unfold LuaTable.rawGet; rw [hk]; rfl
  set E := aug.keys.foldl (fun e k' => e.setLocal k' (aug.rawGet k'))
      ((LuaEnv.child [] g).setLocal "_" (.table aug)) with hE
  have hcreate : createAugmentedEnv sf (some aug) = .ok E := by
    unfold createAugmentedEnv
    rw [hg]
  have hgetk : E.get k = v := by
    rw [hE, foldSet_get_mem aug aug.keys _ k hmem, hraw]
  have hget_ : E.get "_" = .table aug := by
    rw [hE, foldSet_get_not_mem aug aug.keys _ "_" hu, LuaEnv.get_setLocal_self]
  constructor
  · have hev : evalExpression (.varRef k) E sf = .ok v := by
      show Except.ok (E.get k) = Except.ok v
      rw [hgetk]
    simp only [spaceluaEvalExpression, hcreate, hev]
  · have hev0 : evalExpression (.varRef "_") E sf = .ok (.table aug) := by
      show Except.ok (E.get "_") = Except.ok (.table aug)
      rw [hget_]
    have hev : evalExpression (.index (.varRef "_") k) E sf = .ok v := by
      simp only [evalExpression, hev0]
      rw [hget_]
      show Except.ok (aug.rawGet k) = Except.ok v
      rw [hraw]
    simp only [spaceluaEvalExpression, hcreate, hev]

/-- Witness for C4: the spec's example, augmentation `(x : 5)`; both the
expression `x` and the expression `_.x` (as parsed) evaluate to `5`. -/
theorem augmentation_dual_access_witness :
    parseExpressionString "x" = .ok (.varRef "x")
    ∧ parseExpressionString "_.x" = .ok (.index (.varRef "_") "x")
    ∧ spaceluaEvalExpression sfG (.varRef "x") (some (.tcons "x" (.num 5) .tnil)) =
        .ok (.num 5)
    ∧ spaceluaEvalExpression sfG (.index (.varRef "_") "x")
        (some (.tcons "x" (.num 5) .tnil)) = .ok (.num 5) :=
  ⟨rfl, rfl,
   (augmentation_dual_access sfG (.root []) (.tcons "x" (.num 5) .tnil) "x" (.num 5)
     rfl rfl (by decide)).1,
   (augmentation_dual_access sfG (.root []) (.tcons "x" (.num 5) .tnil) "x" (.num 5)
     rfl rfl (by decide)).2⟩

/-! ## C10: extraction lemmas -/

/-- Both sides of a true Boolean conjunction are true. -/
theorem andE {a b : Bool} (h : (a && b) = true) : a = true ∧ b = true := by
  cases a <;> cases b <;> simp_all

/-- `attrListL` distributes over children-list append. -/
theorem attrListL_append : ∀ xs ys : ParseTreeList,
    attrListL (xs.append ys) = attrListL xs ++ attrListL ys
  | .nil, ys => by simp [ParseTreeList.append, attrListL]
  | .cons c cs, ys => by
    simp [ParseTreeList.append, attrListL, attrListL_append cs ys]

/-- The extraction traversal over an appended children list runs the two
parts in sequence. -/
theorem extractGoL_append {α : Type} (yaml : String → Except String α)
    (cleanup : α → α) : ∀ (xs ys : ParseTreeList)
    (st : List (String × α) × List (String × String)),
    extractGoL yaml cleanup (xs.append ys) st =
      (match extractGoL yaml cleanup xs st with
       | .error e => .error e
       | .ok st' => extractGoL yaml cleanup ys st')
  | .nil, ys, st => by simp [ParseTreeList.append, extractGoL]
  | .cons c cs, ys, st => by
    rw [show (ParseTreeList.cons c cs).append ys = .cons c (cs.append ys) from rfl]
    rw [show extractGoL yaml cleanup (.cons c (cs.append ys)) st =
        (match extractGo yaml cleanup false c st with
         | .error e => .error e
         | .ok st1 => extractGoL yaml cleanup (cs.append ys) st1) from rfl]
    rw [show extractGoL yaml cleanup (.cons c cs) st =
        (match extractGo yaml cleanup false c st with
         | .error e => .error e
         | .ok st1 => extractGoL yaml cleanup cs st1) from rfl]
    cases extractGo yaml cleanup false c st with
    | error e => rfl
    | ok st1 => exact extractGoL_append yaml cleanup cs ys st1

mutual
/-- A node found by type has that type. -/
theorem findNode_type : ∀ (t : ParseTree) (ty0 : String) (n : ParseTree),
    findNodeOfType t ty0 = some n → n.type = some ty0
  | .node ty tx cs, ty0, n, h => by
    unfold findNodeOfType at h
    by_cases he : ty = some ty0
    · rw [if_pos he] at h
      injection h with h1
      rw [← h1]
      simpa [ParseTree.type] using he
    · rw [if_neg he] at h
      exact findNodeL_type cs ty0 n h

/-- List version of `findNode_type`. -/
theorem findNodeL_type : ∀ (l : ParseTreeList) (ty0 : String) (n : ParseTree),
    findNodeOfTypeL l ty0 = some n → n.type = some ty0
  | .nil, ty0, n, h => by simp [findNodeOfTypeL] at h
  | .cons c cs, ty0, n, h => by
    unfold findNodeOfTypeL at h
    cases hf : findNodeOfType c ty0 with
    | some r =>
      rw [hf] at h
      injection h with h1
      subst h1
      exact findNode_type c ty0 _ hf
    | none =>
      rw [hf] at h
      exact findNodeL_type cs ty0 n h
end

mutual
/-- A node found inside a well-formed tree is well-formed. -/
theorem findNode_wf : ∀ t : ParseTree, wellFormedA t = true →
    ∀ (ty0 : String) (n : ParseTree), findNodeOfType t ty0 = some n →
      wellFormedA n = true
  | .node ty tx cs, hwf, ty0, n, h => by
    unfold findNodeOfType at h
    by_cases he : ty = some ty0
    · rw [if_pos he] at h
      injection h with h1
      rw [← h1]
      exact hwf
    · rw [if_neg he] at h
      have hwfl : wellFormedAL cs = true :=
        (andE (show ((if ty = some "AttributeName" ∨ ty = some "AttributeValue" then
          isOkB (firstChildText (.node ty tx cs)) else true) && wellFormedAL cs) = true
          from hwf)).2
      exact findNodeL_wf cs hwfl ty0 n h

/-- List version of `findNode_wf`. -/
theorem findNodeL_wf : ∀ l : ParseTreeList, wellFormedAL l = true →
    ∀ (ty0 : String) (n : ParseTree), findNodeOfTypeL l ty0 = some n →
      wellFormedA n = true
  | .nil, _, ty0, n, h => by simp [findNodeOfTypeL] at h
  | .cons c cs, hwf, ty0, n, h => by
    unfold findNodeOfTypeL at h
    have hp := andE (show (wellFormedA c && wellFormedAL cs) = true from hwf)
    cases hf : findNodeOfType c ty0 with
    | some r =>
      rw [hf] at h
      injection h with h1
      subst h1
      exact findNode_wf c hp.1 ty0 _ hf
    | none =>
      rw [hf] at h
      exact findNodeL_wf cs hp.2 ty0 n h
end

/-- A successful `isOkB` yields the success value. -/
theorem isOkB_ok {ε α : Type} : ∀ x : Except ε α, isOkB x = true → ∃ a, x = .ok a
  | .ok a, _ => ⟨a, rfl⟩
  | .error _, h => by simp [isOkB] at h

/-- In a well-formed tree, an `AttributeName` or `AttributeValue` node has
a first child with text. -/
theorem wf_firstChildText (n : ParseTree)
    (h1 : n.type = some "AttributeName" ∨ n.type = some "AttributeValue")
    (h2 : wellFormedA n = true) : ∃ s, firstChildText n = .ok s := by
  cases n with
  | node ty tx cs =>
    simp only [ParseTree.type] at h1
    have h2' : ((if ty = some "AttributeName" ∨ ty = some "AttributeValue" then
        isOkB (firstChildText (.node ty tx cs)) else true) && wellFormedAL cs) = true := h2
    rw [if_pos h1] at h2'
    exact isOkB_ok _ (andE h2').1

mutual
/-- On a well-formed tree the extraction traversal succeeds and computes
the fold of the YAML-filtered collected attribute pairs over the incoming
state. -/
theorem extractGo_build {α : Type} (yaml : String → Except String α)
    (cleanup : α → α) : ∀ (b : Bool) (t : ParseTree)
    (st : List (String × α) × List (String × String)),
    wellFormedA t = true →
    extractGo yaml cleanup b t st =
      .ok ((attrList b t).foldl (attrStep yaml cleanup) st)
  | b, .node ty tx cs, st, hwf => by
    unfold extractGo attrList
    by_cases h1 : b = false ∧ ty = some "ListItem"
    · rw [if_pos h1, if_pos h1]
      rfl
    · rw [if_neg h1, if_neg h1]
      by_cases h2 : ty = some "Attribute"
      · rw [if_pos h2, if_pos h2]
        cases hn : findNodeOfType (.node ty tx cs) "AttributeName" with
        | none => rfl
        | some nn =>
          cases hv2 : findNodeOfType (.node ty tx cs) "AttributeValue" with
          | none => rfl
          | some vn =>
            have htyn := findNode_type _ _ _ hn
            have htyv := findNode_type _ _ _ hv2
            have hwfn := findNode_wf _ hwf _ _ hn
            have hwfv := findNode_wf _ hwf _ _ hv2
            obtain ⟨name, hname⟩ := wf_firstChildText nn (Or.inl htyn) hwfn
            obtain ⟨val, hval⟩ := wf_firstChildText vn (Or.inr htyv) hwfv
            simp only [hname, hval]
            cases hy : yaml val with
            | ok y => simp [attrStep, hy]
            | error e => simp [attrStep, hy]
      · rw [if_neg h2, if_neg h2]
        have hwfl : wellFormedAL cs = true :=
          (andE (show ((if ty = some "AttributeName" ∨ ty = some "AttributeValue" then
            isOkB (firstChildText (.node ty tx cs)) else true) && wellFormedAL cs) = true
            from hwf)).2
        exact extractGoL_build yaml cleanup cs st hwfl

/-- List version of `extractGo_build`. -/
theorem extractGoL_build {α : Type} (yaml : String → Except String α)
    (cleanup : α → α) : ∀ (l : ParseTreeList)
    (st : List (String × α) × List (String × String)),
    wellFormedAL l = true →
    extractGoL yaml cleanup l st =
      .ok ((attrListL l).foldl (attrStep yaml cleanup) st)
  | .nil, st, _ => rfl
  | .cons c cs, st, hwf => by
    have hp := andE (show (wellFormedA c && wellFormedAL cs) = true from hwf)
    rw [show extractGoL yaml cleanup (.cons c cs) st =
        (match extractGo yaml cleanup false c st with
         | .error e => .error e
         | .ok st1 => extractGoL yaml cleanup cs st1) from rfl]
    rw [extractGo_build yaml cleanup false c st hp.1]
    show extractGoL yaml cleanup cs ((attrList false c).foldl (attrStep yaml cleanup) st) = _
    rw [extractGoL_build yaml cleanup cs _ hp.2]
    rw [show attrListL (.cons c cs) = attrList false c ++ attrListL cs from rfl]
    rw [List.foldl_append]
end

/-- The extraction traversal contributes nothing for a nested `ListItem`
child: removing such a child subtree (attributes and all) does not change
the traversal's outcome. -/
theorem extractGoL_skip_listitem {α : Type} (yaml : String → Except String α)
    (cleanup : α → α) (pre post : ParseTreeList) (tx2 : Option String)
    (cs2 : ParseTreeList) (st : List (String × α) × List (String × String)) :
    extractGoL yaml cleanup (pre.append (.cons (.node (some "ListItem") tx2 cs2) post)) st =
      extractGoL yaml cleanup (pre.append post) st := by
  rw [extractGoL_append, extractGoL_append]
  cases extractGoL yaml cleanup pre st with
  | error e => rfl
  | ok st' =>
    show extractGoL yaml cleanup (.cons (.node (some "ListItem") tx2 cs2) post) st' =
      extractGoL yaml cleanup post st'
    rw [show extractGoL yaml cleanup (.cons (.node (some "ListItem") tx2 cs2) post) st' =
        (match extractGo yaml cleanup false (.node (some "ListItem") tx2 cs2) st' with
         | .error e => .error e
         | .ok st1 => extractGoL yaml cleanup post st1) from rfl]
    rw [show extractGo yaml cleanup false (.node (some "ListItem") tx2 cs2) st' = .ok st'
        from rfl]

/-- A nested `ListItem` child contributes no collected attribute pairs. -/
theorem attrListL_skip_listitem (pre post : ParseTreeList) (tx2 : Option String)
    (cs2 : ParseTreeList) :
    attrListL (pre.append (.cons (.node (some "ListItem") tx2 cs2) post)) =
      attrListL (pre.append post) := by
  rw [attrListL_append, attrListL_append]
  rw [show attrListL (.cons (.node (some "ListItem") tx2 cs2) post) =
      attrList false (.node (some "ListItem") tx2 cs2) ++ attrListL post from rfl]
  rw [show attrList false (.node (some "ListItem") tx2 cs2) = [] from rfl]
  rw [List.nil_append]

/-! ## C10 -/

/-- C10: on a well-formed tree, `extractAttributes` never fails when the
YAML parse of some attribute value fails — the failing attribute is only
logged and omitted while every other attribute is still returned (the
result is the fold of the YAML-filtered collected pairs); and the
attributes of a nested `ListItem` subtree are never collected: removing
such a subtree changes neither the traversal outcome nor the collected
pairs (at any non-`Attribute` parent). -/
theorem extractAttributes_spec {α : Type} (yaml : String → Except String α)
    (cleanup : α → α) :
    (∀ t, wellFormedA t = true →
      extractAttributes yaml cleanup t = .ok (buildAttrs yaml cleanup (attrList true t)))
    ∧ (∀ (ty tx : Option String) (pre post : ParseTreeList) (tx2 : Option String)
        (cs2 : ParseTreeList) (st : List (String × α) × List (String × String)),
        ty ≠ some "Attribute" →
        extractGo yaml cleanup true
            (.node ty tx (pre.append (.cons (.node (some "ListItem") tx2 cs2) post))) st =
          extractGo yaml cleanup true (.node ty tx (pre.append post)) st
        ∧ attrList true (.node ty tx (pre.append (.cons (.node (some "ListItem") tx2 cs2) post))) =
          attrList true (.node ty tx (pre.append post))) := by
  constructor
  · intro t hwf
    unfold extractAttributes buildAttrs
    exact extractGo_build yaml cleanup true t ([], []) hwf
  · intro ty tx pre post tx2 cs2 st hty
    have h01 : ¬(true = false ∧ ty = some "ListItem") := by simp
    constructor
    · unfold extractGo
      rw [if_neg h01, if_neg h01, if_neg hty, if_neg hty]
      exact extractGoL_skip_listitem yaml cleanup pre post tx2 cs2 st
    · unfold attrList
      rw [if_neg h01, if_neg h01, if_neg hty, if_neg hty]
      exact attrListL_skip_listitem pre post tx2 cs2

/-- Witness for C10: a document with one good attribute, one whose value
the YAML facility rejects, and one inside a nested list item; the rejected
value is logged and omitted, the good one returned, the nested one never
collected. -/
theorem extractAttributes_spec_witness :
    extractAttributes (fun s => if s = "bad" then .error "boom" else .ok s)
        (fun s => s)
        (.node (some "Document") none
          (.cons (.node (some "Attribute") none
              (.cons (.node (some "AttributeName") none (.cons (textLeaf "a") .nil))
                (.cons (.node (some "AttributeValue") none (.cons (textLeaf "1") .nil)) .nil)))
            (.cons (.node (some "Attribute") none
                (.cons (.node (some "AttributeName") none (.cons (textLeaf "b") .nil))
                  (.cons (.node (some "AttributeValue") none (.cons (textLeaf "bad") .nil)) .nil)))
              (.cons (.node (some "ListItem") none
                  (.cons (.node (some "Attribute") none
                      (.cons (.node (some "AttributeName") none (.cons (textLeaf "c") .nil))
                        (.cons (.node (some "AttributeValue") none (.cons (textLeaf "2") .nil)) .nil)))
                    .nil))
                .nil)))) =
      .ok ([("a", "1")], [("bad", "boom")])
    ∧ attrList true
        (.node (some "Document") none
          ((ParseTreeList.cons (.node (some "Attribute") none
              (.cons (.node (some "AttributeName") none (.cons (textLeaf "a") .nil))
                (.cons (.node (some "AttributeValue") none (.cons (textLeaf "1") .nil)) .nil)))
            .nil).append
            (.cons (.node (some "ListItem") none
                (.cons (.node (some "Attribute") none
                    (.cons (.node (some "AttributeName") none (.cons (textLeaf "c") .nil))
                      (.cons (.node (some "AttributeValue") none (.cons (textLeaf "2") .nil)) .nil)))
                  .nil))
              .nil))) =
      attrList true
        (.node (some "Document") none
          ((ParseTreeList.cons (.node (some "Attribute") none
              (.cons (.node (some "AttributeName") none (.cons (textLeaf "a") .nil))
                (.cons (.node (some "AttributeValue") none (.cons (textLeaf "1") .nil)) .nil)))
            .nil).append .nil)) := by
  constructor
  · have h := (extractAttributes_spec (fun s => if s = "bad" then .error "boom" else .ok s)
      (fun s => s)).1
      (.node (some "Document") none
        (.cons (.node (some "Attribute") none
            (.cons (.node (some "AttributeName") none (.cons (textLeaf "a") .nil))
              (.cons (.node (some "AttributeValue") none (.cons (textLeaf "1") .nil)) .nil)))
          (.cons (.node (some "Attribute") none
              (.cons (.node (some "AttributeName") none (.cons (textLeaf "b") .nil))
                (.cons (.node (some "AttributeValue") none (.cons (textLeaf "bad") .nil)) .nil)))
            (.cons (.node (some "ListItem") none
                (.cons (.node (some "Attribute") none
                    (.cons (.node (some "AttributeName") none (.cons (textLeaf "c") .nil))
                      (.cons (.node (some "AttributeValue") none (.cons (textLeaf "2") .nil)) .nil)))
                  .nil))
              .nil))))
      rfl
    rw [h]
    rfl
  · exact ((extractAttributes_spec (fun s => if s = "bad" then .error "boom" else .ok s)
      (fun s => s)).2 (some "Document") none
      (.cons (.node (some "Attribute") none
          (.cons (.node (some "AttributeName") none (.cons (textLeaf "a") .nil))
            (.cons (.node (some "AttributeValue") none (.cons (textLeaf "1") .nil)) .nil)))
        .nil)
      .nil none
      (.cons (.node (some "Attribute") none
          (.cons (.node (some "AttributeName") none (.cons (textLeaf "c") .nil))
            (.cons (.node (some "AttributeValue") none (.cons (textLeaf "2") .nil)) .nil)))
        .nil)
      ([], []) (by simp)).2
